import Mathlib

set_option maxRecDepth 4000

/-!
Verification of the cc-safe permission classification engine.

The definitions below are a shallow embedding of the JavaScript module that
exports `isInsideContainer` and `checkPermission` (the current checker with
the dedicated sudo and git-push sub-classifiers).  JavaScript regular
expressions are embedded as terms of a small regex language `RE` together
with a backtracking matcher `reMatch`; `reTest re s` is the analogue of the
JavaScript `re.test(s)` (an unanchored search for a match anywhere in `s`).
Strings are modelled as `List Char` where convenient; case folding is the
ASCII simple mapping (the engine is only ever exercised on ASCII rule text).
-/

namespace CcSafe

/-! ### JavaScript character classes -/

/-- JS word character, the class underlying the word-boundary assertion:
letters, digits and underscore. -/
def wordCh (c : Char) : Bool :=
  (Char.ofNat 97 ≤ c && c ≤ Char.ofNat 122) ||
  (Char.ofNat 65 ≤ c && c ≤ Char.ofNat 90) ||
  (Char.ofNat 48 ≤ c && c ≤ Char.ofNat 57) || c == Char.ofNat 95

/-- JS whitespace class matched by a backslash-s escape: ASCII whitespace plus
the Unicode space separators, NBSP, BOM and line/paragraph separators. -/
def jsSpace (c : Char) : Bool :=
  c == Char.ofNat 32 || c == Char.ofNat 9 || c == Char.ofNat 10 ||
  c == Char.ofNat 11 || c == Char.ofNat 12 || c == Char.ofNat 13 ||
  c == Char.ofNat 0xa0 || c == Char.ofNat 0x1680 ||
  (Char.ofNat 0x2000 ≤ c && c ≤ Char.ofNat 0x200a) ||
  c == Char.ofNat 0x2028 || c == Char.ofNat 0x2029 ||
  c == Char.ofNat 0x202f || c == Char.ofNat 0x205f ||
  c == Char.ofNat 0x3000 || c == Char.ofNat 0xfeff

/-- JS dot without the dotAll flag: any character except line terminators. -/
def jsDot (c : Char) : Bool :=
  !(c == Char.ofNat 10 || c == Char.ofNat 13 ||
    c == Char.ofNat 0x2028 || c == Char.ofNat 0x2029)

/-- The class of ASCII letters, written [a-zA-Z] in the source patterns. -/
def alphaCh (c : Char) : Bool :=
  (Char.ofNat 97 ≤ c && c ≤ Char.ofNat 122) ||
  (Char.ofNat 65 ≤ c && c ≤ Char.ofNat 90)

/-- The shell-operator class [;&|] of the sudo pattern. -/
def opCh (c : Char) : Bool :=
  c == Char.ofNat 59 || c == Char.ofNat 38 || c == Char.ofNat 124

/-- The quote class of the sudo pattern: single or double quote. -/
def quoteCh (c : Char) : Bool :=
  c == Char.ofNat 39 || c == Char.ofNat 34

/-- ASCII simple lower-casing, the fragment of `toLowerCase` the rules use. -/
def lowerChar (c : Char) : Char :=
  if Char.ofNat 65 ≤ c && c ≤ Char.ofNat 90 then Char.ofNat (c.toNat + 32) else c

/-! ### List-of-characters string helpers -/

/-- `listStarts s l` holds when `s` is a prefix of `l`. -/
def listStarts : List Char → List Char → Bool
  | [], _ => true
  | _ :: _, [] => false
  | a :: s, b :: t => a == b && listStarts s t

/-- `containsSub sub hay` holds when `sub` occurs as a contiguous substring of
`hay`, the analogue of JavaScript `String.prototype.includes`. -/
def containsSub (sub : List Char) : List Char → Bool
  | [] => listStarts sub []
  | c :: t => listStarts sub (c :: t) || containsSub sub t

/-! ### A regex language covering the constructs used by the source patterns -/

/-- Regular-expression syntax used by the rule table: literals, single-char
classes, concatenation, ordered alternation, char-class star and plus,
string-start and string-end anchors, word boundary, negative lookahead and
fixed-string negative lookbehind. -/
inductive RE : Type where
  | eps : RE
  | lit : String → RE
  | ch : (Char → Bool) → RE
  | cat : RE → RE → RE
  | alt : RE → RE → RE
  | star : (Char → Bool) → RE
  | plus : (Char → Bool) → RE
  | bos : RE
  | eos : RE
  | wordB : RE
  | nla : RE → RE
  | nlb : List String → RE

/-- Concatenation of a list of regexes. -/
def rCat (l : List RE) : RE := l.foldr RE.cat RE.eps

/-- Word-character status of the character adjacent to a position. -/
def isWordEdge : Option Char → Bool
  | some c => wordCh c
  | none => false

/-- Match a literal character list at the head of `rest`, threading the
reversed consumed prefix `rev` through the continuation. -/
def litMatch : List Char → List Char → List Char →
    (List Char → List Char → Bool) → Bool
  | [], rev, rest, k => k rev rest
  | _ :: _, _, [], _ => false
  | c :: s, rev, d :: rs, k => c == d && litMatch s (d :: rev) rs k

/-- All the ways a character-class star can consume a prefix of `rest`
(existence semantics: the order greedy backtracking explores alternatives
does not affect whether some match exists). -/
def starCh (p : Char → Bool) (k : List Char → List Char → Bool) :
    List Char → List Char → Bool
  | rev, [] => k rev []
  | rev, c :: rs => k rev (c :: rs) || (p c && starCh p k (c :: rev) rs)

/-- Backtracking matcher in continuation-passing style.  The state is the
reversed already-consumed prefix `rev` (needed by the boundary and lookbehind
assertions) and the remaining suffix `rest`. -/
def reMatch : RE → List Char → List Char → (List Char → List Char → Bool) → Bool
  | .eps, rev, rest, k => k rev rest
  | .lit s, rev, rest, k => litMatch s.data rev rest k
  | .ch p, _, [], _ => (fun _ => false) p
  | .ch p, rev, c :: rs, k => p c && k (c :: rev) rs
  | .cat a b, rev, rest, k =>
      reMatch a rev rest (fun rev2 rest2 => reMatch b rev2 rest2 k)
  | .alt a b, rev, rest, k => reMatch a rev rest k || reMatch b rev rest k
  | .star p, rev, rest, k => starCh p k rev rest
  | .plus p, _, [], _ => (fun _ => false) p
  | .plus p, rev, c :: rs, k => p c && starCh p k (c :: rev) rs
  | .bos, rev, rest, k => rev.isEmpty && k rev rest
  | .eos, rev, rest, k => rest.isEmpty && k rev rest
  | .wordB, rev, rest, k =>
      (isWordEdge rev.head? != isWordEdge rest.head?) && k rev rest
  | .nla a, rev, rest, k => !(reMatch a rev rest fun _ _ => true) && k rev rest
  | .nlb ss, rev, rest, k =>
      ss.all (fun s => !(listStarts s.data.reverse rev)) && k rev rest

/-- Search for a match starting at the current position or any later one. -/
def reSearch (re : RE) : List Char → List Char → Bool
  | rev, [] => reMatch re rev [] fun _ _ => true
  | rev, c :: rs =>
      reMatch re rev (c :: rs) (fun _ _ => true) || reSearch re (c :: rev) rs

/-- The analogue of JavaScript `re.test(s)`: does `re` match somewhere in
`s`? -/
def reTest (re : RE) (s : String) : Bool := reSearch re [] s.data

/-! ### Data model -/

/-- Severity levels of a finding. -/
inductive Severity : Type where
  | HIGH : Severity
  | MEDIUM : Severity
  | LOW : Severity
deriving DecidableEq, Repr

/-- A reported issue: rule name, severity, human-readable rationale and the
originating permission string, copied verbatim. -/
structure Finding : Type where
  name : String
  severity : Severity
  description : String
  permission : String
deriving DecidableEq, Repr

/-- One entry of the dangerous-pattern table.  `skipContainerCheck` marks the
two rules that bypass the container exemption. -/
structure Rule : Type where
  name : String
  pattern : RE
  severity : Severity
  description : String
  skipContainerCheck : Bool := false

/-! ### Container detection -/

/-- The fixed list of container/VM invocation prefixes. -/
def CONTAINER_PREFIXES : List String :=
  ["docker exec", "podman exec", "nerdctl exec", "kubectl exec",
   "docker run", "podman run", "orb run", "orb -m"]

/-- `isInsideContainer` lower-cases the command and looks for any container
prefix as a substring. -/
def isInsideContainer (command : String) : Bool :=
  let lowerCmd := command.data.map lowerChar
  CONTAINER_PREFIXES.any fun pfx => containsSub pfx.data lowerCmd

/-! ### The general dangerous-pattern table -/

/-- Single-character literal as a regex. -/
def chE (c : Char) : RE := RE.ch fun d => d == c

/-- The force-delete pattern: lookbehind excluding docker/podman, word
boundary, `rm`, whitespace, then one of the three f-flag shapes. -/
def rmForceRE : RE :=
  rCat [RE.nlb ["docker ", "podman "], RE.wordB, RE.lit "rm", RE.plus jsSpace,
    RE.alt (rCat [RE.lit "-", RE.star alphaCh, chE (Char.ofNat 102)])
      (RE.alt (rCat [RE.lit "-f", RE.star alphaCh]) (RE.lit "--force"))]

/-- The whole-string `Bash` pattern. -/
def bashAllRE : RE := rCat [RE.bos, RE.lit "Bash", RE.eos]

/-- The `chmod 777` pattern with word boundaries. -/
def chmod777RE : RE :=
  rCat [RE.wordB, RE.lit "chmod", RE.plus jsSpace, RE.lit "777", RE.wordB]

/-- The recursive-chmod pattern: `chmod`, whitespace, a dash flag cluster
containing `R`. -/
def chmodRRE : RE :=
  rCat [RE.wordB, RE.lit "chmod", RE.plus jsSpace, RE.lit "-",
    RE.star alphaCh, chE (Char.ofNat 82)]

/-- The download-and-execute pattern: `curl` or `wget`, anything, a pipe into
`sh` or `bash`. -/
def curlShRE : RE :=
  rCat [RE.wordB, RE.alt (RE.lit "curl") (RE.lit "wget"), RE.wordB,
    RE.star jsDot, RE.lit "|", RE.star jsSpace,
    RE.alt (RE.lit "sh") (RE.lit "bash"), RE.wordB]

/-- The raw-disk-copy pattern: `dd` with an `if=` argument. -/
def ddRE : RE := rCat [RE.wordB, RE.lit "dd", RE.plus jsSpace, RE.lit "if="]

/-- The `mkfs` pattern. -/
def mkfsRE : RE := rCat [RE.wordB, RE.lit "mkfs", RE.wordB]

/-- The `fdisk` pattern. -/
def fdiskRE : RE := rCat [RE.wordB, RE.lit "fdisk", RE.wordB]

/-- The raw-device redirect pattern: `>` into a /dev block-device path. -/
def devWriteRE : RE :=
  rCat [RE.lit ">", RE.star jsSpace, RE.lit "/dev/",
    RE.alt (RE.lit "sd") (RE.alt (RE.lit "hd") (RE.alt (RE.lit "nvme") (RE.lit "vd")))]

/-- The canonical fork-bomb literal, with optional whitespace between its
tokens. -/
def forkBombRE : RE :=
  rCat [RE.lit ":()", RE.star jsSpace, RE.lit "\x7b", RE.star jsSpace,
    RE.lit ":|:&", RE.star jsSpace, RE.lit "\x7d", RE.star jsSpace, RE.lit ";:"]

/-- The safety-bypass flag pattern, a plain literal. -/
def skipPermsRE : RE := RE.lit "--dangerously-skip-permissions"

/-- The `git reset --hard` pattern. -/
def gitResetRE : RE :=
  rCat [RE.wordB, RE.lit "git", RE.plus jsSpace, RE.lit "reset",
    RE.plus jsSpace, RE.lit "--hard", RE.wordB]

/-- The class [fd] used by the git-clean pattern. -/
def fdCh (c : Char) : Bool := c == Char.ofNat 102 || c == Char.ofNat 100

/-- The `git clean` pattern: a dash cluster containing `f` and `d` in either
order. -/
def gitCleanRE : RE :=
  rCat [RE.wordB, RE.lit "git", RE.plus jsSpace, RE.lit "clean",
    RE.plus jsSpace, RE.lit "-", RE.star alphaCh, RE.ch fdCh,
    RE.star alphaCh, RE.ch fdCh]

/-- The npm/yarn publish pattern. -/
def npmPublishRE : RE :=
  rCat [RE.wordB, RE.alt (RE.lit "npm") (RE.lit "yarn"), RE.plus jsSpace,
    RE.lit "publish", RE.wordB]

/-- The `twine upload` pattern. -/
def twineRE : RE :=
  rCat [RE.wordB, RE.lit "twine", RE.plus jsSpace, RE.lit "upload", RE.wordB]

/-- The `gem push` pattern. -/
def gemPushRE : RE :=
  rCat [RE.wordB, RE.lit "gem", RE.plus jsSpace, RE.lit "push", RE.wordB]

/-- The `cargo publish` pattern. -/
def cargoRE : RE :=
  rCat [RE.wordB, RE.lit "cargo", RE.plus jsSpace, RE.lit "publish", RE.wordB]

/-- The privileged-container pattern: `docker run … --privileged`. -/
def dockerPrivRE : RE :=
  rCat [RE.wordB, RE.lit "docker", RE.plus jsSpace, RE.lit "run", RE.wordB,
    RE.star jsDot, RE.lit "--privileged"]

/-- The host-root-mount pattern: `docker run … -v /:`. -/
def dockerMountRE : RE :=
  rCat [RE.wordB, RE.lit "docker", RE.plus jsSpace, RE.lit "run", RE.wordB,
    RE.star jsDot, RE.lit "-v", RE.plus jsSpace, RE.lit "/:"]

/-- The `eval` pattern: `eval` followed by whitespace. -/
def evalRE : RE := rCat [RE.wordB, RE.lit "eval", RE.plus jsSpace]

/-- The broad-delete pattern: `rm` followed by an optional-space star, by an
optional-space end of string, or by a closing parenthesis. -/
def rmBroadRE : RE :=
  rCat [RE.wordB, RE.lit "rm",
    RE.alt (rCat [RE.star jsSpace, RE.lit "*"])
      (RE.alt (rCat [RE.star jsSpace, RE.eos]) (RE.lit ")"))]

/-- The ordered dangerous-pattern table, one record per source table entry. -/
def DANGEROUS_PATTERNS : List Rule :=
  [{ name := "rm -rf", pattern := rmForceRE, severity := .HIGH,
     description := "Force-deletes files without confirmation" },
   { name := "Bash (allow all)", pattern := bashAllRE, severity := .HIGH,
     description := "Allows ANY bash command without approval" },
   { name := "chmod 777", pattern := chmod777RE, severity := .HIGH,
     description := "Makes files readable/writable/executable by everyone" },
   { name := "chmod -R", pattern := chmodRRE, severity := .HIGH,
     description := "Recursively changes permissions on entire directory trees" },
   { name := "curl | sh", pattern := curlShRE, severity := .HIGH,
     description := "Downloads and executes code from the internet without review" },
   { name := "dd", pattern := ddRE, severity := .HIGH,
     description := "Low-level disk copy, can overwrite entire disks" },
   { name := "mkfs", pattern := mkfsRE, severity := .HIGH,
     description := "Creates filesystems, destroys existing data" },
   { name := "fdisk", pattern := fdiskRE, severity := .HIGH,
     description := "Modifies disk partition tables" },
   { name := "> /dev/", pattern := devWriteRE, severity := .HIGH,
     description := "Writes directly to raw disk devices" },
   { name := "fork bomb", pattern := forkBombRE, severity := .HIGH,
     description := "Spawns processes until system crashes" },
   { name := "--dangerously-skip-permissions", pattern := skipPermsRE,
     severity := .HIGH,
     description := "Bypasses all Claude Code safety checks on host" },
   { name := "git reset --hard", pattern := gitResetRE, severity := .MEDIUM,
     description := "Discards all uncommitted changes permanently" },
   { name := "git clean -fd", pattern := gitCleanRE, severity := .MEDIUM,
     description := "Deletes all untracked files and directories" },
   { name := "npm publish", pattern := npmPublishRE, severity := .MEDIUM,
     description := "Publishes package to public registry" },
   { name := "twine upload", pattern := twineRE, severity := .MEDIUM,
     description := "Publishes Python package to PyPI" },
   { name := "gem push", pattern := gemPushRE, severity := .MEDIUM,
     description := "Publishes Ruby gem to RubyGems" },
   { name := "cargo publish", pattern := cargoRE, severity := .MEDIUM,
     description := "Publishes Rust crate to crates.io" },
   { name := "docker --privileged", pattern := dockerPrivRE, severity := .MEDIUM,
     description := "Container gets full access to host system",
     skipContainerCheck := true },
   { name := "docker mount root", pattern := dockerMountRE, severity := .MEDIUM,
     description := "Mounts entire host filesystem into container",
     skipContainerCheck := true },
   { name := "eval", pattern := evalRE, severity := .MEDIUM,
     description := "Executes strings as code, potential injection risk" },
   { name := "rm (broad)", pattern := rmBroadRE, severity := .LOW,
     description := "May allow deletion of any files" }]

/-! ### The sudo sub-classifier -/

/-- Safe read-only commands that are LOW risk even with sudo. -/
def SAFE_SUDO_COMMANDS : List String :=
  ["apt-cache", "du", "df", "ls", "cat", "head", "tail", "less", "more",
   "ps", "top", "htop", "lsof", "netstat", "ss", "ip", "ifconfig", "uname",
   "whoami", "id", "which", "whereis", "file", "stat", "find", "locate",
   "grep", "awk", "sed", "wc", "diff", "md5sum", "sha256sum", "shasum",
   "env", "printenv", "dmesg", "journalctl", "systemctl status", "free",
   "vmstat", "iostat", "uptime", "hostname", "date", "cal", "lsblk",
   "blkid", "fdisk -l", "parted -l", "mount", "lscpu", "lsmem", "lspci",
   "lsusb", "dmidecode"]

/-- After the pattern prefix has consumed up to a command position, match the
tail `sudo` + one-or-more whitespace + the captured one-or-more non-space
token of the sudo pattern; greedy quantifier semantics make the captured
token the maximal non-space run after the maximal whitespace run. -/
def sudoTail (cs : List Char) : Option (List Char) :=
  if listStarts "sudo".data cs then
    let afterSudo := cs.drop 4
    let ws := afterSudo.takeWhile jsSpace
    let tok := (afterSudo.dropWhile jsSpace).takeWhile fun c => !jsSpace c
    if ws.isEmpty then none else if tok.isEmpty then none else some tok
  else none

/-- One attempt of the sudo pattern at a fixed start position, trying the
command-position alternatives in source order: start of string, `Bash(`, a
shell operator plus optional whitespace, an opening quote plus optional
whitespace.  Whitespace after an operator or quote is skipped maximally,
which is the only way the following `sudo` literal can match. -/
def sudoAttempt (atStart : Bool) (cs : List Char) : Option (List Char) :=
  (if atStart then sudoTail cs else none) <|>
  (if listStarts "Bash(".data cs then sudoTail (cs.drop 5) else none) <|>
  (match cs with
   | c :: t => if opCh c then sudoTail (t.dropWhile jsSpace) else none
   | [] => none) <|>
  (match cs with
   | c :: t => if quoteCh c then sudoTail (t.dropWhile jsSpace) else none
   | [] => none)

/-- Left-to-right scan for the first start position at which the sudo pattern
matches, returning the captured command token; the analogue of
`permission.match(sudoPattern)` followed by reading capture group 1. -/
def sudoScan (atStart : Bool) : List Char → Option (List Char)
  | [] => sudoAttempt atStart []
  | c :: t => (sudoAttempt atStart (c :: t)).orElse fun _ => sudoScan false t

/-- First match of the sudo command-position pattern in a permission string,
as the captured command token. -/
def sudoMatch (permission : String) : Option (List Char) :=
  sudoScan true permission.data

/-- Is the (lower-cased) command token following `sudo` on the read-only
allowlist?  Multi-word entries are matched by substring containment of
`sudo <entry>` in the lower-cased permission; single-word entries by
equality or by a trailing `:`-wildcard suffix. -/
def sudoIsSafe (permission : String) (tokChars : List Char) : Bool :=
  let sudoCommand := tokChars.map lowerChar
  SAFE_SUDO_COMMANDS.any fun safe =>
    if safe.data.contains (Char.ofNat 32) then
      containsSub ("sudo ".data ++ safe.data) (permission.data.map lowerChar)
    else
      sudoCommand == safe.data ||
      listStarts (safe.data ++ [Char.ofNat 58]) sudoCommand

/-- Special handling for sudo: distinguish safe read-only commands from
dangerous ones. -/
def checkSudo (permission : String) : Option Finding :=
  match sudoMatch permission with
  | none => none
  | some tokChars =>
    if sudoIsSafe permission tokChars then
      some { name := "sudo (read-only)", severity := .LOW,
             description := "Runs read-only command as root (info disclosure only)",
             permission := permission }
    else
      some { name := "sudo", severity := .MEDIUM,
             description := "Runs commands as root/administrator",
             permission := permission }

/-! ### The git-push sub-classifier -/

/-- The word-bounded `git push` pattern. -/
def gitPushRE : RE :=
  rCat [RE.wordB, RE.lit "git", RE.plus jsSpace, RE.lit "push", RE.wordB]

/-- The standalone force flag: `-f` or `--force`, not continuing into
`-with-lease`, ending at a word boundary. -/
def forceFlagRE : RE :=
  rCat [RE.alt (RE.lit "-f") (RE.lit "--force"), RE.nla (RE.lit "-with-lease"),
    RE.wordB]

/-- First force-flag pattern: `git push`, anything, whitespace, then the
standalone force flag. -/
def gitPushForceARE : RE :=
  rCat [gitPushRE, RE.star jsDot, RE.ch jsSpace, forceFlagRE]

/-- Second force-flag pattern: `git push` immediately followed by whitespace
and the standalone force flag. -/
def gitPushForceBRE : RE :=
  rCat [RE.wordB, RE.lit "git", RE.plus jsSpace, RE.lit "push",
    RE.plus jsSpace, forceFlagRE]

/-- The `--force-with-lease` pattern after `git push`. -/
def gitPushFwlRE : RE :=
  rCat [gitPushRE, RE.star jsDot, RE.lit "--force-with-lease", RE.wordB]

/-- Special handling for git push: check the most specific flags first and
return at most one finding. -/
def checkGitPush (permission : String) : Option Finding :=
  if !reTest gitPushRE permission then
    none
  else if reTest gitPushForceARE permission || reTest gitPushForceBRE permission then
    some { name := "git push --force", severity := .HIGH,
           description := "Overwrites remote git history, can destroy work",
           permission := permission }
  else if reTest gitPushFwlRE permission then
    some { name := "git push --force-with-lease", severity := .MEDIUM,
           description := "Safer force push but still rewrites history",
           permission := permission }
  else
    some { name := "git push", severity := .LOW,
           description := "Pushes commits to remote repository",
           permission := permission }

/-! ### The classifier entry point -/

/-- The finding a table rule produces for a permission string. -/
def ruleFinding (permission : String) (r : Rule) : Finding :=
  { name := r.name, severity := r.severity, description := r.description,
    permission := permission }

/-- The loop over the rule table: skip rules subject to the container
exemption, emit a finding per matching rule, in table order. -/
def tableLoop (permission : String) (inContainer : Bool) : List Rule → List Finding
  | [] => []
  | r :: rest =>
    if inContainer && !r.skipContainerCheck then
      tableLoop permission inContainer rest
    else if reTest r.pattern permission then
      ruleFinding permission r :: tableLoop permission inContainer rest
    else
      tableLoop permission inContainer rest

/-- Check a single permission entry for dangerous patterns: the table rules
in order, then (outside containers) the git-push and sudo sub-classifiers. -/
def checkPermission (permission : String) : List Finding :=
  let inContainer := isInsideContainer permission
  let issues := tableLoop permission inContainer DANGEROUS_PATTERNS
  if inContainer then
    issues
  else
    issues ++ (checkGitPush permission).toList ++ (checkSudo permission).toList

/-! ### Named findings, used to state the properties below -/

/-- The LOW finding of the sudo sub-classifier. -/
def sudoLowFinding (p : String) : Finding :=
  { name := "sudo (read-only)", severity := .LOW,
    description := "Runs read-only command as root (info disclosure only)",
    permission := p }

/-- The MEDIUM finding of the sudo sub-classifier. -/
def sudoMedFinding (p : String) : Finding :=
  { name := "sudo", severity := .MEDIUM,
    description := "Runs commands as root/administrator", permission := p }

/-- The HIGH finding of the git-push sub-classifier. -/
def gpForceFinding (p : String) : Finding :=
  { name := "git push --force", severity := .HIGH,
    description := "Overwrites remote git history, can destroy work",
    permission := p }

/-- The MEDIUM finding of the git-push sub-classifier. -/
def gpFwlFinding (p : String) : Finding :=
  { name := "git push --force-with-lease", severity := .MEDIUM,
    description := "Safer force push but still rewrites history",
    permission := p }

/-- The LOW finding of the git-push sub-classifier. -/
def gpLowFinding (p : String) : Finding :=
  { name := "git push", severity := .LOW,
    description := "Pushes commits to remote repository", permission := p }

/-- The HIGH finding of the force-delete table rule. -/
def rmForceFinding (p : String) : Finding :=
  { name := "rm -rf", severity := .HIGH,
    description := "Force-deletes files without confirmation", permission := p }

/-- Findings attributable to the sudo sub-classifier, by name. -/
def sudoNameB (n : String) : Bool := n == "sudo" || n == "sudo (read-only)"

/-- Findings attributable to the git-push sub-classifier, by name. -/
def gitPushNameB (n : String) : Bool :=
  n == "git push" || n == "git push --force" || n == "git push --force-with-lease"

/-! ### Helper lemmas about the classifier -/

/-- Membership in the table loop: a finding arises from a rule of the list
that survives the container exemption and whose pattern matches. -/
theorem mem_tableLoop {p : String} {c : Bool} {f : Finding} :
    ∀ {rules : List Rule}, f ∈ tableLoop p c rules ↔
      ∃ r ∈ rules, (c && !r.skipContainerCheck) = false ∧
        reTest r.pattern p = true ∧ f = ruleFinding p r := by
  intro rules
  induction rules with
  | nil => simp [tableLoop]
  | cons r rest ih =>
    simp only [tableLoop]
    split_ifs with h1 h2
    · rw [ih]
      constructor
      · rintro ⟨r', hr', hc, ht, hf⟩
        exact ⟨r', List.mem_cons_of_mem _ hr', hc, ht, hf⟩
      · rintro ⟨r', hr', hc, ht, hf⟩
        rcases List.mem_cons.mp hr' with rfl | hr'
        · rw [h1] at hc; cases hc
        · exact ⟨r', hr', hc, ht, hf⟩
    · rw [List.mem_cons, ih]
      constructor
      · rintro (rfl | ⟨r', hr', hc, ht, hf⟩)
        · exact ⟨r, List.mem_cons_self r rest, Bool.eq_false_iff.mpr h1, h2, rfl⟩
        · exact ⟨r', List.mem_cons_of_mem _ hr', hc, ht, hf⟩
      · rintro ⟨r', hr', hc, ht, hf⟩
        rcases List.mem_cons.mp hr' with rfl | hr'
        · exact Or.inl hf
        · exact Or.inr ⟨r', hr', hc, ht, hf⟩
    · rw [ih]
      constructor
      · rintro ⟨r', hr', hc, ht, hf⟩
        exact ⟨r', List.mem_cons_of_mem _ hr', hc, ht, hf⟩
      · rintro ⟨r', hr', hc, ht, hf⟩
        rcases List.mem_cons.mp hr' with rfl | hr'
        · exact absurd ht h2
        · exact ⟨r', hr', hc, ht, hf⟩

/-- If a predicate rejects every finding the rules can produce, filtering the
table loop gives the empty list. -/
theorem filter_tableLoop_nil {q : Finding → Bool} {p : String} {c : Bool} :
    ∀ {rules : List Rule}, (∀ r ∈ rules, q (ruleFinding p r) = false) →
      (tableLoop p c rules).filter q = [] := by
  intro rules
  induction rules with
  | nil => intro _; simp [tableLoop]
  | cons r rest ih =>
    intro h
    have hr : q (ruleFinding p r) = false := h r (List.mem_cons_self r rest)
    have hrest := ih fun r' hr' => h r' (List.mem_cons_of_mem _ hr')
    simp only [tableLoop]
    split_ifs with h1 h2
    · exact hrest
    · simp [List.filter_cons, hr, hrest]
    · exact hrest

/-- The sudo sub-classifier returns nothing or one of its two findings. -/
theorem checkSudo_cases (p : String) :
    checkSudo p = none ∨ checkSudo p = some (sudoLowFinding p) ∨
      checkSudo p = some (sudoMedFinding p) := by
  unfold checkSudo
  cases sudoMatch p with
  | none => exact Or.inl rfl
  | some tok =>
    by_cases h : sudoIsSafe p tok
    · exact Or.inr (Or.inl (by simp [h, sudoLowFinding]))
    · exact Or.inr (Or.inr (by simp [h, sudoMedFinding]))

/-- On a sudo match, the sub-classifier emits exactly the finding selected by
the allowlist check. -/
theorem checkSudo_eq_of_match {p : String} {tok : List Char}
    (hm : sudoMatch p = some tok) :
    checkSudo p =
      some (if sudoIsSafe p tok then sudoLowFinding p else sudoMedFinding p) := by
  unfold checkSudo
  rw [hm]
  by_cases h : sudoIsSafe p tok <;> simp [h, sudoLowFinding, sudoMedFinding]

/-- The git-push sub-classifier returns nothing or one of its three
findings. -/
theorem checkGitPush_cases (p : String) :
    checkGitPush p = none ∨ checkGitPush p = some (gpForceFinding p) ∨
      checkGitPush p = some (gpFwlFinding p) ∨
      checkGitPush p = some (gpLowFinding p) := by
  unfold checkGitPush
  split_ifs
  · exact Or.inl rfl
  · exact Or.inr (Or.inl (by simp [gpForceFinding]))
  · exact Or.inr (Or.inr (Or.inl (by simp [gpFwlFinding])))
  · exact Or.inr (Or.inr (Or.inr (by simp [gpLowFinding])))

/-! ### Substring lemmas for the container detector -/

/-- A prefix of a list stays a prefix after appending on the right. -/
theorem listStarts_append {sub l : List Char} (post : List Char)
    (h : listStarts sub l = true) : listStarts sub (l ++ post) = true := by
  induction sub generalizing l with
  | nil => simp [listStarts]
  | cons a s ih =>
    cases l with
    | nil => simp [listStarts] at h
    | cons b t =>
      simp only [listStarts, Bool.and_eq_true, beq_iff_eq] at h
      simp only [List.cons_append, listStarts, Bool.and_eq_true, beq_iff_eq]
      exact ⟨h.1, ih h.2⟩

/-- The empty list is a substring of everything. -/
theorem containsSub_nil_left : ∀ l : List Char, containsSub [] l = true
  | [] => rfl
  | _ :: _ => by simp [containsSub, listStarts]

/-- Substring containment is preserved by prepending to the haystack. -/
theorem containsSub_append_left {sub t : List Char} (l : List Char)
    (h : containsSub sub t = true) : containsSub sub (l ++ t) = true := by
  induction l with
  | nil => simpa using h
  | cons c l ih =>
    simp only [List.cons_append, containsSub, Bool.or_eq_true]
    exact Or.inr ih

/-- Substring containment is preserved by appending to the haystack. -/
theorem containsSub_append_right {sub l : List Char} (post : List Char)
    (h : containsSub sub l = true) : containsSub sub (l ++ post) = true := by
  induction l with
  | nil =>
    cases sub with
    | nil => simpa using containsSub_nil_left post
    | cons a s => simp [containsSub, listStarts] at h
  | cons c t ih =>
    simp only [containsSub, Bool.or_eq_true] at h
    simp only [List.cons_append, containsSub, Bool.or_eq_true]
    rcases h with h | h
    · exact Or.inl (listStarts_append post h)
    · exact Or.inr (ih h)

/-- Container detection is not anchored: any enclosing string of a contained
command is still detected. -/
theorem isInsideContainer_embed (pre s post : String)
    (h : isInsideContainer s = true) :
    isInsideContainer (pre ++ s ++ post) = true := by
  simp only [isInsideContainer, List.any_eq_true, Bool.decide_eq_true] at h ⊢
  rcases h with ⟨pfx, hmem, hsub⟩
  refine ⟨pfx, hmem, ?_⟩
  rw [String.data_append, String.data_append, List.map_append, List.map_append]
  exact containsSub_append_right _ (containsSub_append_left _ hsub)

/-- Outside a container, the classifier output is the table findings followed
by the git-push and sudo sub-classifier findings. -/
theorem checkPermission_of_notContainer {p : String}
    (hc : isInsideContainer p = false) :
    checkPermission p = tableLoop p false DANGEROUS_PATTERNS ++
      (checkGitPush p).toList ++ (checkSudo p).toList := by
  simp only [checkPermission, hc]
  simp

/-- Inside a container, the classifier output is the table findings alone
(evaluated with the exemption active). -/
theorem checkPermission_of_container {p : String}
    (hc : isInsideContainer p = true) :
    checkPermission p = tableLoop p true DANGEROUS_PATTERNS := by
  simp only [checkPermission, hc]
  simp

/-! ### The claims -/

/-- C4: `isInsideContainer` returns true exactly when the lower-cased input
contains one of the eight fixed container/VM prefixes as a substring
anywhere (not anchored to the start); it is total and returns false on every
string lacking all prefixes, including the empty string and strings that
merely mention sudo or rm. -/
theorem claim_C4 :
    (∀ s : String,
      isInsideContainer s = true ↔
        (containsSub "docker exec".data (s.data.map lowerChar) = true ∨
         containsSub "podman exec".data (s.data.map lowerChar) = true ∨
         containsSub "nerdctl exec".data (s.data.map lowerChar) = true ∨
         containsSub "kubectl exec".data (s.data.map lowerChar) = true ∨
         containsSub "docker run".data (s.data.map lowerChar) = true ∨
         containsSub "podman run".data (s.data.map lowerChar) = true ∨
         containsSub "orb run".data (s.data.map lowerChar) = true ∨
         containsSub "orb -m".data (s.data.map lowerChar) = true)) ∧
    (∀ pre s post : String, isInsideContainer s = true →
      isInsideContainer (pre ++ s ++ post) = true) ∧
    isInsideContainer "" = false ∧
    isInsideContainer "sudo apt update" = false ∧
    isInsideContainer "Bash(sudo rm -rf /tmp)" = false := by
  refine ⟨?_, isInsideContainer_embed, by decide, by decide, by decide⟩
  intro s
  simp [isInsideContainer, CONTAINER_PREFIXES]

/-- Witness for C4, applying the non-anchoring conjunct at a concrete
embedding of a contained command. -/
theorem claim_C4_witness :
    isInsideContainer ("Bash(" ++ "docker run ubuntu" ++ " sudo ls)") = true :=
  claim_C4.2.1 "Bash(" "docker run ubuntu" " sudo ls)" (by decide)

/-- C2: inside a container, every finding comes from one of the two
exemption-bypassing rules; the docker-exec example yields nothing and the
privileged-run example yields exactly one MEDIUM finding. -/
theorem claim_C2 :
    (∀ p : String, isInsideContainer p = true → ∀ f ∈ checkPermission p,
      (f.name = "docker --privileged" ∧ f.severity = Severity.MEDIUM) ∨
      (f.name = "docker mount root" ∧ f.severity = Severity.MEDIUM)) ∧
    checkPermission "Bash(docker exec my-container sudo rm -rf /tmp)" = [] ∧
    checkPermission "Bash(docker run --privileged ubuntu)" =
      [{ name := "docker --privileged", severity := .MEDIUM,
         description := "Container gets full access to host system",
         permission := "Bash(docker run --privileged ubuntu)" }] := by
  refine ⟨?_, by decide, by decide⟩
  intro p hp f hf
  rw [checkPermission_of_container hp] at hf
  rcases mem_tableLoop.mp hf with ⟨r, hr, hcond, _, rfl⟩
  have hskip : r.skipContainerCheck = true := by
    cases h : r.skipContainerCheck
    · rw [h] at hcond; simp at hcond
    · rfl
  have key : ∀ r ∈ DANGEROUS_PATTERNS, r.skipContainerCheck = true →
      (r.name = "docker --privileged" ∧ r.severity = Severity.MEDIUM) ∨
      (r.name = "docker mount root" ∧ r.severity = Severity.MEDIUM) := by decide
  simpa [ruleFinding] using key r hr hskip

/-- Witness for C2, applying the container invariant to the one finding of
the privileged-run example. -/
theorem claim_C2_witness :
    ({ name := "docker --privileged", severity := .MEDIUM,
       description := "Container gets full access to host system",
       permission := "Bash(docker run --privileged ubuntu)" : Finding }.name =
        "docker --privileged" ∧
     ({ name := "docker --privileged", severity := .MEDIUM,
        description := "Container gets full access to host system",
        permission := "Bash(docker run --privileged ubuntu)" : Finding }.severity =
        Severity.MEDIUM)) ∨
    ({ name := "docker --privileged", severity := .MEDIUM,
       description := "Container gets full access to host system",
       permission := "Bash(docker run --privileged ubuntu)" : Finding }.name =
        "docker mount root" ∧
     ({ name := "docker --privileged", severity := .MEDIUM,
        description := "Container gets full access to host system",
        permission := "Bash(docker run --privileged ubuntu)" : Finding }.severity =
        Severity.MEDIUM)) :=
  claim_C2.1 "Bash(docker run --privileged ubuntu)" (by decide) _ (by decide)

/-- C7: every finding carries one of the three severities and the exact
input string as its permission field, with no normalization. -/
theorem claim_C7 :
    ∀ p : String, ∀ f ∈ checkPermission p,
      (f.severity = Severity.HIGH ∨ f.severity = Severity.MEDIUM ∨
        f.severity = Severity.LOW) ∧ f.permission = p := by
  intro p f hf
  refine ⟨by cases h : f.severity <;> simp [h], ?_⟩
  by_cases hc : isInsideContainer p = true
  · rw [checkPermission_of_container hc] at hf
    rcases mem_tableLoop.mp hf with ⟨r, _, _, _, rfl⟩
    rfl
  · rw [Bool.not_eq_true] at hc
    rw [checkPermission_of_notContainer hc] at hf
    rcases List.mem_append.mp hf with hf | hsudo
    · rcases List.mem_append.mp hf with htab | hgp
      · rcases mem_tableLoop.mp htab with ⟨r, _, _, _, rfl⟩
        rfl
      · rcases checkGitPush_cases p with h | h | h | h <;> rw [h] at hgp <;>
          simp at hgp <;>
          simp [hgp, gpForceFinding, gpFwlFinding, gpLowFinding]
    · rcases checkSudo_cases p with h | h | h <;> rw [h] at hsudo <;>
        simp at hsudo <;> simp [hsudo, sudoLowFinding, sudoMedFinding]

/-- Witness for C7 at a concrete finding of a concrete permission. -/
theorem claim_C7_witness :
    ((rmForceFinding "Bash(rm -rf /tmp/foo)").severity = Severity.HIGH ∨
     (rmForceFinding "Bash(rm -rf /tmp/foo)").severity = Severity.MEDIUM ∨
     (rmForceFinding "Bash(rm -rf /tmp/foo)").severity = Severity.LOW) ∧
    (rmForceFinding "Bash(rm -rf /tmp/foo)").permission = "Bash(rm -rf /tmp/foo)" :=
  claim_C7 "Bash(rm -rf /tmp/foo)" (rmForceFinding "Bash(rm -rf /tmp/foo)")
    (by decide)

/-- C8: the classifier is total -- every string yields a (possibly empty)
finding list -- and the empty string and an unrelated tool name yield the
empty list. -/
theorem claim_C8 :
    (∀ p : String, ∃ findings : List Finding, checkPermission p = findings) ∧
    checkPermission "" = [] ∧ checkPermission "WebSearch" = [] :=
  ⟨fun p => ⟨checkPermission p, rfl⟩, by decide, by decide⟩

/-- C9: the table matchers and the sudo locator are case-sensitive -- the
upper-cased command yields no findings while its lower-case form yields the
rm-force and sudo findings -- and only container detection lower-cases its
input. -/
theorem claim_C9 :
    checkPermission "Bash(SUDO RM -RF /)" = [] ∧
    checkPermission "Bash(sudo rm -rf /)" =
      [rmForceFinding "Bash(sudo rm -rf /)",
       sudoMedFinding "Bash(sudo rm -rf /)"] ∧
    isInsideContainer "DOCKER RUN ubuntu" = true := by
  refine ⟨by decide, by decide, by decide⟩

/-- C10: `sudo` not followed by whitespace and a further token produces no
sudo match and no finding at all. -/
theorem claim_C10 :
    checkPermission "sudo" = [] ∧ checkPermission "Bash(sudo)" = [] ∧
    sudoMatch "sudo" = none ∧ sudoMatch "Bash(sudo)" = none := by
  refine ⟨by decide, by decide, by decide, by decide⟩

/-- C1: outside a container, a sudo match at a command position yields
exactly one sudo-named finding: the LOW read-only finding when the captured
token passes the allowlist check, the MEDIUM sudo finding otherwise; the two
examples evaluate as claimed. -/
theorem claim_C1 :
    (∀ (p : String) (tok : List Char),
      isInsideContainer p = false → sudoMatch p = some tok →
      (checkPermission p).filter (fun f => sudoNameB f.name) =
        [if sudoIsSafe p tok then sudoLowFinding p else sudoMedFinding p]) ∧
    checkPermission "Bash(sudo ls -la /root)" =
      [sudoLowFinding "Bash(sudo ls -la /root)"] ∧
    checkPermission "Bash(sudo apt install vim)" =
      [sudoMedFinding "Bash(sudo apt install vim)"] := by
  refine ⟨?_, by decide, by decide⟩
  intro p tok hc hm
  have htable : (tableLoop p false DANGEROUS_PATTERNS).filter
      (fun f => sudoNameB f.name) = [] := by
    apply filter_tableLoop_nil
    have key : ∀ r ∈ DANGEROUS_PATTERNS, sudoNameB r.name = false := by decide
    intro r hr
    simpa [ruleFinding] using key r hr
  have hgp : ((checkGitPush p).toList).filter (fun f => sudoNameB f.name) = [] := by
    rcases checkGitPush_cases p with h | h | h | h <;>
      simp [h, gpForceFinding, gpFwlFinding, gpLowFinding, sudoNameB]
  rw [checkPermission_of_notContainer hc, List.filter_append, List.filter_append,
    htable, hgp, checkSudo_eq_of_match hm]
  by_cases hs : sudoIsSafe p tok <;>
    simp [hs, sudoLowFinding, sudoMedFinding, sudoNameB]

/-- Witness for C1, applied at a host sudo command with an unsafe token. -/
theorem claim_C1_witness :
    (checkPermission "sudo apt update").filter (fun f => sudoNameB f.name) =
      [if sudoIsSafe "sudo apt update" "apt".data then
        sudoLowFinding "sudo apt update" else sudoMedFinding "sudo apt update"] :=
  claim_C1.1 "sudo apt update" "apt".data (by decide) (by decide)

/-- C3: outside a container, the git-push sub-classifier contributes at most
one finding: none without a word-bounded `git push`, else the HIGH force
finding when a standalone `-f`/`--force` (not part of `--force-with-lease`)
follows, else the MEDIUM force-with-lease finding, else the LOW plain-push
finding; the two examples evaluate as claimed. -/
theorem claim_C3 :
    (∀ p : String, isInsideContainer p = false →
      ((reTest gitPushRE p = false →
          (checkPermission p).filter (fun f => gitPushNameB f.name) = []) ∧
       (reTest gitPushRE p = true →
          (checkPermission p).filter (fun f => gitPushNameB f.name) =
            [if reTest gitPushForceARE p || reTest gitPushForceBRE p then
                gpForceFinding p
              else if reTest gitPushFwlRE p then gpFwlFinding p
              else gpLowFinding p]))) ∧
    checkPermission "Bash(git push --force)" =
      [gpForceFinding "Bash(git push --force)"] ∧
    checkPermission "Bash(git push origin main)" =
      [gpLowFinding "Bash(git push origin main)"] := by
  refine ⟨?_, by decide, by decide⟩
  intro p hc
  have htable : (tableLoop p false DANGEROUS_PATTERNS).filter
      (fun f => gitPushNameB f.name) = [] := by
    apply filter_tableLoop_nil
    have key : ∀ r ∈ DANGEROUS_PATTERNS, gitPushNameB r.name = false := by decide
    intro r hr
    simpa [ruleFinding] using key r hr
  have hsudo : ((checkSudo p).toList).filter (fun f => gitPushNameB f.name) = [] := by
    rcases checkSudo_cases p with h | h | h <;>
      simp [h, sudoLowFinding, sudoMedFinding, gitPushNameB]
  constructor
  · intro hgp
    have hnone : checkGitPush p = none := by
      unfold checkGitPush
      rw [hgp]
      simp
    rw [checkPermission_of_notContainer hc, List.filter_append, List.filter_append,
      htable, hsudo, hnone]
    simp
  · intro hgp
    have hsome : checkGitPush p =
        some (if reTest gitPushForceARE p || reTest gitPushForceBRE p then
            gpForceFinding p
          else if reTest gitPushFwlRE p then gpFwlFinding p
          else gpLowFinding p) := by
      unfold checkGitPush
      rw [hgp]
      split_ifs <;>
        simp_all [gpForceFinding, gpFwlFinding, gpLowFinding]
    rw [checkPermission_of_notContainer hc, List.filter_append, List.filter_append,
      htable, hsudo, hsome]
    split_ifs <;> simp [gpForceFinding, gpFwlFinding, gpLowFinding, gitPushNameB]

/-- Witness for C3, applied at a plain push that takes the LOW branch. -/
theorem claim_C3_witness :
    (checkPermission "git push").filter (fun f => gitPushNameB f.name) =
      [if reTest gitPushForceARE "git push" || reTest gitPushForceBRE "git push" then
          gpForceFinding "git push"
        else if reTest gitPushFwlRE "git push" then gpFwlFinding "git push"
        else gpLowFinding "git push"] :=
  (claim_C3.1 "git push" (by decide)).2 (by decide)

/-- C5: findings are appended in the fixed order general table, then
git-push sub-classifier, then sudo sub-classifier; the compound example
yields the chmod finding before the sudo finding. -/
theorem claim_C5 :
    (∀ p : String, checkPermission p =
      tableLoop p (isInsideContainer p) DANGEROUS_PATTERNS ++
        (if isInsideContainer p then [] else (checkGitPush p).toList) ++
        (if isInsideContainer p then [] else (checkSudo p).toList)) ∧
    checkPermission "Bash(sudo chmod 777 /tmp)" =
      [{ name := "chmod 777", severity := .HIGH,
         description := "Makes files readable/writable/executable by everyone",
         permission := "Bash(sudo chmod 777 /tmp)" },
       sudoMedFinding "Bash(sudo chmod 777 /tmp)"] := by
  refine ⟨?_, by decide⟩
  intro p
  by_cases hc : isInsideContainer p = true
  · rw [checkPermission_of_container hc, hc]
    simp
  · rw [Bool.not_eq_true] at hc
    rw [checkPermission_of_notContainer hc, hc]
    simp

/-- C6: outside a container, the HIGH `rm -rf` finding is emitted exactly
when the force-delete pattern matches; the docker-rm idiom yields nothing
and the plain rm-force example yields exactly the one HIGH finding. -/
theorem claim_C6 :
    (∀ p : String, isInsideContainer p = false →
      (rmForceFinding p ∈ checkPermission p ↔ reTest rmForceRE p = true)) ∧
    checkPermission "Bash(docker rm -f container)" = [] ∧
    checkPermission "Bash(rm -rf /tmp/foo)" =
      [rmForceFinding "Bash(rm -rf /tmp/foo)"] := by
  refine ⟨?_, by decide, by decide⟩
  intro p hc
  rw [checkPermission_of_notContainer hc]
  constructor
  · intro hmem
    rcases List.mem_append.mp hmem with hmem | hsudo
    · rcases List.mem_append.mp hmem with htab | hgp
      · rcases mem_tableLoop.mp htab with ⟨r, hr, _, ht, hf⟩
        simp only [DANGEROUS_PATTERNS, List.mem_cons, List.not_mem_nil,
          or_false] at hr
        rcases hr with rfl | rfl | rfl | rfl | rfl | rfl | rfl | rfl | rfl |
          rfl | rfl | rfl | rfl | rfl | rfl | rfl | rfl | rfl | rfl | rfl | rfl
        · exact ht
        all_goals (exfalso; simp [rmForceFinding, ruleFinding] at hf)
      · rcases checkGitPush_cases p with h | h | h | h <;> rw [h] at hgp <;>
          simp [rmForceFinding, gpForceFinding, gpFwlFinding, gpLowFinding] at hgp
    · rcases checkSudo_cases p with h | h | h <;> rw [h] at hsudo <;>
        simp [rmForceFinding, sudoLowFinding, sudoMedFinding] at hsudo
  · intro ht
    apply List.mem_append.mpr
    left
    apply List.mem_append.mpr
    left
    apply mem_tableLoop.mpr
    have hrm : ({ name := "rm -rf", pattern := rmForceRE, severity := Severity.HIGH, description := "Force-deletes files without confirmation" } : Rule) ∈ DANGEROUS_PATTERNS := by
      simp [DANGEROUS_PATTERNS]
    exact ⟨_, hrm, by simp, ht, rfl⟩

/-- Witness for C6, applied at the plain rm-force example. -/
theorem claim_C6_witness :
    rmForceFinding "Bash(rm -rf /tmp/foo)" ∈
      checkPermission "Bash(rm -rf /tmp/foo)" :=
  (claim_C6.1 "Bash(rm -rf /tmp/foo)" (by decide)).mpr (by decide)

end CcSafe
